import Mathlib

/-!
Verification of the voxel shape kernel of the Chiselcore shape editor:
connectivity analysis (`findConnectedComponents`, `isShapeConnected`,
`validateShape`), grid resampling (`convertGridSize`), and the binary-string
shape codec (`voxelDataToBinaryString`, `binaryStringToVoxelData`,
`detectGridSize`, `exportToJSON`, `importFromJSON`, `validateJSONFormat`).

The JS source is embedded shallowly:
* a voxel grid is a `List Bool` with canonical linear index
  `x + y*N + z*N*N`; a JS array read `voxelData[i]` (undefined being falsy)
  becomes `List.getD i false`;
* voxel positions are triples of `Int` coordinates, since flood-fill
  candidate neighbors may step outside the grid before the bounds check;
* the JS `Set` of visited string keys becomes a `List Pos` queried with
  `contains` (the keying of in-range integer triples is injective);
* the two JS `while (queue.length > 0)` breadth-first loops become one
  fuel-indexed recursion `bfsLoop`, instantiated with each call site's
  neighbor list; fuel equal to the number of occupied cells is proved
  sufficient for the queue to drain;
* fallible JS code (`throw new Error`) returns `Except String`;
* JS falsy-or defaults (`v || d`) on numeric fields become
  `orFalsyDefault : Option Int → Int → Int`.
-/

namespace Chiselcore

/-- A voxel position: a triple of integer coordinates. Flood-fill candidate
neighbors may have coordinates outside `[0, N)`, hence `Int`. -/
structure Pos where
  x : Int
  y : Int
  z : Int
deriving DecidableEq, Repr

/-- `isValidPosition(x, y, z, gridSize)` from ShapeValidator: bounds check
of a candidate coordinate against `[0, gridSize)` on every axis. -/
def isValidPosition (x y z : Int) (gridSize : Nat) : Bool :=
  0 ≤ x && x < gridSize && 0 ≤ y && y < gridSize && 0 ≤ z && z < gridSize

/-- The canonical linear index `x + y*N + z*N*N` of a (bounds-checked)
position, as a natural number. -/
def cellIndex (x y z : Int) (gridSize : Nat) : Nat :=
  (x + y * gridSize + z * gridSize * gridSize).toNat

/-- The occupied-cell scan shared by `findConnectedComponents` and
`isShapeConnected`: iterate `x` outer, `y` middle, `z` inner, each ascending
over `[0, gridSize)`, and collect the positions whose cell is occupied. -/
def voxelPositions (voxelData : List Bool) (gridSize : Nat) : List Pos :=
  (List.range gridSize).flatMap fun x =>
    (List.range gridSize).flatMap fun y =>
      (List.range gridSize).filterMap fun z =>
        if voxelData.getD (x + y * gridSize + z * gridSize * gridSize) false
        then some ⟨x, y, z⟩ else none

/-- The 6 face-adjacency offsets (`directions` in `findConnectedComponents`
and `faceDirections` in `getNeighbors`). -/
def faceDirections : List (Int × Int × Int) :=
  [(1, 0, 0), (-1, 0, 0), (0, 1, 0), (0, -1, 0), (0, 0, 1), (0, 0, -1)]

/-- The 12 edge-adjacency offsets of `getNeighbors`. -/
def edgeDirections : List (Int × Int × Int) :=
  [(1, 1, 0), (1, -1, 0), (-1, 1, 0), (-1, -1, 0),
   (1, 0, 1), (1, 0, -1), (-1, 0, 1), (-1, 0, -1),
   (0, 1, 1), (0, 1, -1), (0, -1, 1), (0, -1, -1)]

/-- The 8 corner-adjacency offsets of `getNeighbors`. -/
def cornerDirections : List (Int × Int × Int) :=
  [(1, 1, 1), (1, 1, -1), (1, -1, 1), (1, -1, -1),
   (-1, 1, 1), (-1, 1, -1), (-1, -1, 1), (-1, -1, -1)]

/-- Shift a position by an offset triple. -/
def Pos.step (p : Pos) (d : Int × Int × Int) : Pos :=
  ⟨p.x + d.1, p.y + d.2.1, p.z + d.2.2⟩

/-- `getNeighbors(x, y, z, connectivityType)`: always the 6 face neighbors;
plus the 12 edge neighbors when the type is the exact string `"edge"` or
`"corner"`; plus the 8 corner neighbors when it is `"corner"`. -/
def getNeighbors (p : Pos) (connectivityType : String) : List Pos :=
  faceDirections.map p.step
    ++ (if connectivityType = "edge" ∨ connectivityType = "corner"
        then edgeDirections.map p.step else [])
    ++ (if connectivityType = "corner" then cornerDirections.map p.step else [])

/-- The guard both breadth-first loops apply to a candidate neighbor:
inside the grid, and its cell occupied. -/
def validCell (voxelData : List Bool) (gridSize : Nat) (p : Pos) : Bool :=
  isValidPosition p.x p.y p.z gridSize
    && voxelData.getD (cellIndex p.x p.y p.z gridSize) false

/-- The per-neighbor body of both breadth-first loops: given the state
`(queue, visited)` and a candidate neighbor, if it is inside the grid,
occupied, and not yet visited, mark it visited and enqueue it. -/
def visitNeighbor (voxelData : List Bool) (gridSize : Nat)
    (st : List Pos × List Pos) (p : Pos) : List Pos × List Pos :=
  if validCell voxelData gridSize p && !(st.2.contains p)
  then (st.1 ++ [p], st.2 ++ [p])
  else st

/-- The `while (queue.length > 0)` breadth-first loop shared by
`findConnectedComponents` and `isShapeConnected`: pop the queue front,
append it to the visitation-order `component`, and process each of its
neighbors with `visitNeighbor`. `fuel` bounds the number of iterations;
`bfsLoop_drains` below shows the occupied-cell count is enough fuel for
the queue to drain. Returns the final `(visited, component)`. -/
def bfsLoop (neighborsOf : Pos → List Pos) (voxelData : List Bool) (gridSize : Nat) :
    Nat → List Pos → List Pos → List Pos → List Pos × List Pos
  | 0, _, visited, component => (visited, component)
  | _ + 1, [], visited, component => (visited, component)
  | fuel + 1, current :: rest, visited, component =>
      let st := (neighborsOf current).foldl (visitNeighbor voxelData gridSize) (rest, visited)
      bfsLoop neighborsOf voxelData gridSize fuel st.1 st.2 (component ++ [current])

/-- `findConnectedComponents(voxelData, gridSize)`: scan the occupied cells
in grid order; for each not-yet-visited one, breadth-first flood fill under
the hard-coded face `directions`, sharing the `visited` set across seeds,
and emit the traversal's visitation order as one component. The JS guard
`if (!voxelData || gridSize <= 0) return []` is subsumed: a degenerate size
yields an empty scan, hence an empty fold. `fccStep` is the body of the
outer `for (const voxelPos of voxelPositions)` loop: skip an
already-visited cell, else flood fill from it (marking it visited first)
and push the resulting component. -/
def fccStep (voxelData : List Bool) (gridSize fuel : Nat)
    (st : List Pos × List (List Pos)) (voxelPos : Pos) : List Pos × List (List Pos) :=
  if st.1.contains voxelPos then st
  else
    let result := bfsLoop (fun p => faceDirections.map p.step) voxelData gridSize
      fuel [voxelPos] (st.1 ++ [voxelPos]) []
    (result.1, st.2 ++ [result.2])

/-- `findConnectedComponents(voxelData, gridSize)`: fold `fccStep` over the
occupied cells in grid-scan order, sharing the visited set across seeds,
and return the accumulated components. -/
def findConnectedComponents (voxelData : List Bool) (gridSize : Nat) : List (List Pos) :=
  let positions := voxelPositions voxelData gridSize
  (positions.foldl (fccStep voxelData gridSize positions.length) ([], [])).2

/-- `isShapeConnected(voxelData, gridSize, connectivityType)`: false when no
cell is occupied (which covers the JS degenerate-input guard), true for a
single occupied cell, else breadth-first from the first occupied cell in scan
order under `getNeighbors`, connected iff the visited count equals the
occupied count. -/
def isShapeConnected (voxelData : List Bool) (gridSize : Nat)
    (connectivityType : String) : Bool :=
  match voxelPositions voxelData gridSize with
  | [] => false
  | [_] => true
  | seed :: _ :: _ =>
      let positions := voxelPositions voxelData gridSize
      let result := bfsLoop (fun p => getNeighbors p connectivityType) voxelData gridSize
        positions.length [seed] [seed] []
      result.1.length == positions.length

/-- `isShapeUniform` is a synonym for `isShapeConnected`. -/
def isShapeUniform (voxelData : List Bool) (gridSize : Nat)
    (connectivityType : String) : Bool :=
  isShapeConnected voxelData gridSize connectivityType

/-- The record returned by `getConnectivityDebugInfo`. -/
structure DebugInfo where
  componentCount : Nat
  components : List (List Pos)
  floatingVoxels : List Pos
  totalVoxels : Nat
deriving Repr

/-- `getConnectivityDebugInfo(voxelData, gridSize)`: face-rule components,
with every component after the first flattened into `floatingVoxels`. -/
def getConnectivityDebugInfo (voxelData : List Bool) (gridSize : Nat) : DebugInfo :=
  let components := findConnectedComponents voxelData gridSize
  { componentCount := components.length
    components := components
    floatingVoxels := if components.length > 1 then (components.drop 1).flatten else []
    totalVoxels := (voxelData.filter fun v => v).length }

/-- The record returned by `validateShape`. -/
structure ValidationResult where
  hasVoxels : Bool
  isConnected : Bool
  isUniform : Bool
  voxelCount : Nat
  isValid : Bool
  errors : List String
  debugInfo : DebugInfo
  connectivityType : String
deriving Repr

/-- `validateShape(voxelData, gridSize, connectivityType)`: count occupied
entries of the backing array; an empty shape short-circuits with the single
error `"Shape must have at least one voxel"`; otherwise the connectivity
verdict fills `isConnected`/`isUniform`, disconnection appends either the
two component-count errors (when face-rule discovery found more than one
component) or the generic floating-parts error, and
`isValid = hasVoxels && isConnected && isUniform`. -/
def validateShape (voxelData : List Bool) (gridSize : Nat)
    (connectivityType : String) : ValidationResult :=
  let voxelCount := (voxelData.filter fun voxel => voxel).length
  let debugInfo := getConnectivityDebugInfo voxelData gridSize
  if voxelCount > 0 then
    let isConnectedV := isShapeConnected voxelData gridSize connectivityType
    let errors : List String :=
      if isConnectedV then []
      else if debugInfo.componentCount > 1 then
        let connectivityDesc := if connectivityType = "face" then "by faces"
          else if connectivityType = "edge" then "by faces and edges"
          else "by faces, edges and corners"
        let partCount := debugInfo.componentCount
        let floatCount := debugInfo.floatingVoxels.length
        let groupCount := debugInfo.componentCount - 1
        [s!"All voxels must be connected {connectivityDesc} (found {partCount} separate parts)",
         s!"Floating voxels: {floatCount} voxels in {groupCount} groups"]
      else ["All voxels must be connected (no floating parts)"]
    { hasVoxels := true
      isConnected := isConnectedV
      isUniform := isConnectedV
      voxelCount := voxelCount
      isValid := true && isConnectedV && isConnectedV
      errors := errors
      debugInfo := debugInfo
      connectivityType := connectivityType }
  else
    { hasVoxels := false
      isConnected := false
      isUniform := false
      voxelCount := voxelCount
      isValid := false
      errors := ["Shape must have at least one voxel"]
      debugInfo := debugInfo
      connectivityType := connectivityType }

/-- `voxelDataToBinaryString(voxelData)`: one character per cell in linear
index order, `'1'` for occupied else `'0'`, joined into one string. -/
def voxelDataToBinaryString (voxelData : List Bool) : String :=
  String.mk (voxelData.map fun voxel => if voxel then '1' else '0')

/-- `binaryStringToVoxelData(binaryString)`: split into characters, each cell
true exactly when its character is `'1'`. -/
def binaryStringToVoxelData (binaryString : String) : List Bool :=
  binaryString.data.map fun bit => bit == '1'

/-- The largest `r` with `r³ ≤ n`: the floor of the real cube root of `n`. -/
def floorCbrt (n : Nat) : Nat :=
  Nat.findGreatest (fun r => r ^ 3 ≤ n) n

/-- Models `Math.round(Math.cbrt(n))` for a natural `n` in exact real
arithmetic: the floor of the cube root, bumped by one when the fractional
part is at least one half, i.e. when `(2r+1)³ ≤ 8n`. (`Math.round` rounds
half toward positive infinity, and the cube root of an integer is never
exactly half-integral, so nearest-integer agrees with JS on every input;
floating-point `Math.cbrt` imprecision is idealized away.) -/
def roundCbrt (n : Nat) : Nat :=
  let r := floorCbrt n
  if (2 * r + 1) ^ 3 ≤ 8 * n then r + 1 else r

/-- `detectGridSize(binaryString)`: round the cube root of the length; if
its cube gives back the length exactly that is the grid size, otherwise
throw the not-a-perfect-cube `Error`. -/
def detectGridSize (binaryString : String) : Except String Nat :=
  let len := binaryString.length
  let cubeRoot := roundCbrt len
  if cubeRoot * cubeRoot * cubeRoot = len then Except.ok cubeRoot
  else Except.error s!"Binary string length ({len}) is not a perfect cube"

/-- Models the JS falsy-or default `v || d` on a numeric field: a missing
field (undefined) and a present `0` are both falsy and replaced by `d`. -/
def orFalsyDefault (v : Option Int) (d : Int) : Int :=
  match v with
  | none => d
  | some x => if x = 0 then d else x

/-- Editor-side shape metadata, each field possibly absent. -/
structure ShapeMetadata where
  difficulty : Option Int
  maxMoves : Option Int
deriving Repr

/-- The wire payload: each field is optional, as a parsed JSON object may
lack any of them. A present non-string `voxelDataString` is modelled as
`none`, which the source treats the same way. -/
structure JSONPayload where
  voxelDataString : Option String
  difficulty : Option Int
  maxMoves : Option Int
deriving Repr

/-- Decoded metadata, after defaulting. -/
structure ImportedMetadata where
  difficulty : Int
  maxMoves : Int
deriving Repr, DecidableEq

/-- The record returned by `importFromJSON`. -/
structure ImportResult where
  voxelData : List Bool
  gridSize : Nat
  metadata : ImportedMetadata
deriving Repr, DecidableEq

/-- `exportToJSON(voxelData, metadata)`: the binary string plus the
metadata fields, falsy values coalesced to the defaults 5 and 50. -/
def exportToJSON (voxelData : List Bool) (metadata : ShapeMetadata) : JSONPayload :=
  { voxelDataString := some (voxelDataToBinaryString voxelData)
    difficulty := some (orFalsyDefault metadata.difficulty 5)
    maxMoves := some (orFalsyDefault metadata.maxMoves 50) }

/-- `importFromJSON(jsonData)`: decode the binary string, derive the grid
size via `detectGridSize` (propagating its error), and default missing or
falsy `difficulty`/`maxMoves` to 5/50. A missing `voxelDataString` is the
JS runtime error of calling `.split` on undefined. -/
def importFromJSON (jsonData : JSONPayload) : Except String ImportResult :=
  match jsonData.voxelDataString with
  | none => Except.error "voxelDataString is not a string"
  | some s => do
      let voxelData := binaryStringToVoxelData s
      let gridSize ← detectGridSize s
      pure { voxelData := voxelData
             gridSize := gridSize
             metadata := { difficulty := orFalsyDefault jsonData.difficulty 5
                           maxMoves := orFalsyDefault jsonData.maxMoves 50 } }

/-- The coordinate triples `(x, y, z)` visited by a triple nested loop
`for x { for y { for z } }`, each index ascending over `[0, n)`. -/
def gridCoords (n : Nat) : List (Nat × Nat × Nat) :=
  (List.range n).flatMap fun x =>
    (List.range n).flatMap fun y =>
      (List.range n).map fun z => (x, y, z)

/-- `convertGridSize(voxelData, fromGridSize, toGridSize)`: start from an
all-false array of `toGridSize³` cells; when expanding (`from ≤ to`) copy
every source cell to the destination shifted by `offset = (to − from) / 2`
on every axis; when cropping copy every destination cell from the source
shifted by `offset = (from − to) / 2`, guarded by the source bound check.
The nested loop writing into the fresh array is embedded as a fold with
`List.set` over the loop's coordinate order. -/
def convertGridSize (voxelData : List Bool) (fromGridSize toGridSize : Nat) : List Bool :=
  let init := List.replicate (toGridSize * toGridSize * toGridSize) false
  if fromGridSize ≤ toGridSize then
    let offset := (toGridSize - fromGridSize) / 2
    (gridCoords fromGridSize).foldl
      (fun acc c =>
        let oldIndex := c.1 + c.2.1 * fromGridSize + c.2.2 * fromGridSize * fromGridSize
        let newIndex := (c.1 + offset) + (c.2.1 + offset) * toGridSize
          + (c.2.2 + offset) * toGridSize * toGridSize
        acc.set newIndex (voxelData.getD oldIndex false))
      init
  else
    let offset := (fromGridSize - toGridSize) / 2
    (gridCoords toGridSize).foldl
      (fun acc c =>
        let oldX := c.1 + offset
        let oldY := c.2.1 + offset
        let oldZ := c.2.2 + offset
        if oldX < fromGridSize ∧ oldY < fromGridSize ∧ oldZ < fromGridSize then
          let oldIndex := oldX + oldY * fromGridSize + oldZ * fromGridSize * fromGridSize
          let newIndex := c.1 + c.2.1 * toGridSize + c.2.2 * toGridSize * toGridSize
          acc.set newIndex (voxelData.getD oldIndex false)
        else acc)
      init

/-- The record returned by `validateJSONFormat`. -/
structure FormatValidation where
  isValid : Bool
  errors : List String
deriving Repr, DecidableEq

/-- `validateJSONFormat(jsonData)`: accumulate, in order, the
`voxelDataString` errors (missing/invalid — which a JS empty string also
triggers, being falsy — else non-binary characters, else
non-perfect-cube length), then the `difficulty` range error, then the
`maxMoves` range error; valid iff no error. The JS not-an-object
short-circuit cannot fire on a typed payload. -/
def validateJSONFormat (jsonData : JSONPayload) : FormatValidation :=
  let vdsErrors : List String :=
    match jsonData.voxelDataString with
    | none => ["Missing or invalid voxelDataString field"]
    | some s =>
        if s = "" then ["Missing or invalid voxelDataString field"]
        else if ¬ (s.data.all fun c => c == '0' || c == '1') then
          ["voxelDataString must contain only 0 and 1"]
        else
          let len := s.length
          let cubeRoot := roundCbrt len
          if cubeRoot * cubeRoot * cubeRoot ≠ len then
            [s!"voxelDataString length ({len}) is not a perfect cube"]
          else []
  let difficultyErrors : List String :=
    match jsonData.difficulty with
    | some d => if 1 ≤ d ∧ d ≤ 10 then [] else ["difficulty must be an integer from 1 to 10"]
    | none => ["difficulty must be an integer from 1 to 10"]
  let maxMovesErrors : List String :=
    match jsonData.maxMoves with
    | some m => if 1 ≤ m ∧ m ≤ 999 then [] else ["maxMoves must be an integer from 1 to 999"]
    | none => ["maxMoves must be an integer from 1 to 999"]
  let errors := vdsErrors ++ difficultyErrors ++ maxMovesErrors
  { isValid := errors.isEmpty, errors := errors }

/-! ### Basic facts about the occupied-cell scan -/

theorem cellIndex_natCast (a b c n : Nat) :
    cellIndex (a : Int) (b : Int) (c : Int) n = a + b * n + c * n * n := by
  unfold cellIndex
  rw [show ((a : Int) + b * n + c * n * n) = ((a + b * n + c * n * n : Nat) : Int) by
    push_cast; ring]
  exact Int.toNat_natCast _

theorem mem_voxelPositions {voxelData : List Bool} {gridSize : Nat} {p : Pos} :
    p ∈ voxelPositions voxelData gridSize ↔ validCell voxelData gridSize p = true := by
  unfold voxelPositions validCell isValidPosition
  simp only [List.mem_flatMap, List.mem_filterMap, List.mem_range]
  constructor
  · rintro ⟨x, hx, y, hy, z, hz, hif⟩
    split at hif
    case isFalse => exact Option.noConfusion hif
    case isTrue hocc =>
      have hp : Pos.mk x y z = p := by injection hif
      subst hp
      rw [cellIndex_natCast]
      simp only [Bool.and_eq_true, decide_eq_true_eq]
      exact ⟨by omega, hocc⟩
  · intro hval
    simp only [Bool.and_eq_true, decide_eq_true_eq] at hval
    obtain ⟨⟨⟨⟨⟨⟨hx0, hxN⟩, hy0⟩, hyN⟩, hz0⟩, hzN⟩, hocc⟩ := hval
    refine ⟨p.x.toNat, by omega, p.y.toNat, by omega, p.z.toNat, by omega, ?_⟩
    have hx : (p.x.toNat : Int) = p.x := Int.toNat_of_nonneg hx0
    have hy : (p.y.toNat : Int) = p.y := Int.toNat_of_nonneg hy0
    have hz : (p.z.toNat : Int) = p.z := Int.toNat_of_nonneg hz0
    have hidx : p.x.toNat + p.y.toNat * gridSize + p.z.toNat * gridSize * gridSize
        = cellIndex p.x p.y p.z gridSize := by
      conv_rhs => rw [← hx, ← hy, ← hz]
      rw [cellIndex_natCast]
    rw [hidx, if_pos hocc, hx, hy, hz]

theorem voxelPositions_nodup (voxelData : List Bool) (gridSize : Nat) :
    (voxelPositions voxelData gridSize).Nodup := by
  unfold voxelPositions
  rw [List.nodup_flatMap]
  constructor
  · intro x _
    rw [List.nodup_flatMap]
    constructor
    · intro y _
      apply List.Nodup.filterMap ?_ (List.nodup_range gridSize)
      intro a b c hca hcb
      split at hca <;> split at hcb <;> simp_all
      rw [← hcb] at hca
      have : (a : Int) = b := congrArg Pos.z hca
      omega
    · apply List.Pairwise.imp ?_ (List.pairwise_lt_range gridSize)
      intro y y' hyy
      simp only [Function.onFun, List.disjoint_left, List.mem_filterMap, List.mem_range]
      rintro p ⟨z, hz, hp⟩ ⟨z', hz', hp'⟩
      split at hp <;> split at hp' <;> simp_all
      rw [← hp'] at hp
      have : (y : Int) = y' := congrArg Pos.y hp
      omega
  · apply List.Pairwise.imp ?_ (List.pairwise_lt_range gridSize)
    intro x x' hxx
    simp only [Function.onFun, List.disjoint_left, List.mem_flatMap, List.mem_filterMap,
      List.mem_range]
    rintro p ⟨y, hy, z, hz, hp⟩ ⟨y', hy', z', hz', hp'⟩
    split at hp <;> split at hp' <;> simp_all
    rw [← hp'] at hp
    have : (x : Int) = x' := congrArg Pos.x hp
    omega

theorem voxelPositions_length_ge {voxelData : List Bool} {gridSize : Nat} {v : List Pos}
    (hnd : v.Nodup) (hsub : ∀ p ∈ v, validCell voxelData gridSize p = true) :
    v.length ≤ (voxelPositions voxelData gridSize).length :=
  (List.subperm_of_subset hnd fun p hp => mem_voxelPositions.mpr (hsub p hp)).length_le

/-! ### The breadth-first engine -/

theorem foldl_visit_spec (voxelData : List Bool) (gridSize : Nat) (ns : List Pos) :
    ∀ q v : List Pos,
      ∃ d : List Pos,
        ns.foldl (visitNeighbor voxelData gridSize) (q, v) = (q ++ d, v ++ d)
        ∧ (∀ p ∈ d, validCell voxelData gridSize p = true ∧ p ∈ ns ∧ p ∉ v)
        ∧ (v.Nodup → (v ++ d).Nodup)
        ∧ (∀ p ∈ ns, validCell voxelData gridSize p = true → p ∈ v ++ d) := by
  induction ns with
  | nil =>
      intro q v
      exact ⟨[], by simp⟩
  | cons p ns ih =>
      intro q v
      by_cases hval : validCell voxelData gridSize p = true
      · by_cases hmem : p ∈ v
        · have hstep : visitNeighbor voxelData gridSize (q, v) p = (q, v) := by
            unfold visitNeighbor
            simp [hval, hmem]
          obtain ⟨d, heq, hprop, hnd, hcov⟩ := ih q v
          refine ⟨d, ?_, ?_, hnd, ?_⟩
          · rw [List.foldl_cons, hstep, heq]
          · exact fun x hx => ⟨(hprop x hx).1, List.mem_cons_of_mem _ (hprop x hx).2.1,
              (hprop x hx).2.2⟩
          · intro x hx hv
            rcases List.mem_cons.mp hx with rfl | hx
            · exact List.mem_append_left _ hmem
            · exact hcov x hx hv
        · have hstep : visitNeighbor voxelData gridSize (q, v) p = (q ++ [p], v ++ [p]) := by
            unfold visitNeighbor
            simp [hval, hmem]
          obtain ⟨d, heq, hprop, hnd, hcov⟩ := ih (q ++ [p]) (v ++ [p])
          refine ⟨p :: d, ?_, ?_, ?_, ?_⟩
          · rw [List.foldl_cons, hstep, heq]
            simp
          · intro x hx
            rcases List.mem_cons.mp hx with rfl | hx
            · exact ⟨hval, List.mem_cons_self _ _, hmem⟩
            · refine ⟨(hprop x hx).1, List.mem_cons_of_mem _ (hprop x hx).2.1, fun hxv => ?_⟩
              exact (hprop x hx).2.2 (List.mem_append_left _ hxv)
          · intro hvnd
            have : (v ++ [p]).Nodup := by
              rw [List.nodup_append]
              exact ⟨hvnd, List.nodup_singleton _, by simpa using hmem⟩
            have := hnd this
            simpa using this
          · intro x hx hv
            rcases List.mem_cons.mp hx with rfl | hx
            · have hx2 : x ∈ (v ++ [x]) ++ d := List.mem_append_left _ (by simp)
              simp only [List.append_assoc, List.singleton_append] at hx2 ⊢
              exact hx2
            · have := hcov x hx hv
              simpa using this
      · have hstep : visitNeighbor voxelData gridSize (q, v) p = (q, v) := by
          unfold visitNeighbor
          simp [hval]
        obtain ⟨d, heq, hprop, hnd, hcov⟩ := ih q v
        refine ⟨d, ?_, ?_, hnd, ?_⟩
        · rw [List.foldl_cons, hstep, heq]
        · exact fun x hx => ⟨(hprop x hx).1, List.mem_cons_of_mem _ (hprop x hx).2.1,
            (hprop x hx).2.2⟩
        · intro x hx hv
          rcases List.mem_cons.mp hx with rfl | hx
          · exact absurd hv hval
          · exact hcov x hx hv

/-- The main breadth-first invariant: starting from a queue whose entries are
already visited, with a duplicate-free visited list of in-grid occupied
cells and enough fuel, the loop drains the queue, visiting a set `d` of new
cells; the popped list (the component) is a permutation of the initial queue
plus `d`, and every valid neighbor of a popped cell ends up visited. -/
theorem bfsLoop_drains (nf : Pos → List Pos) (voxelData : List Bool) (gridSize : Nat) :
    ∀ (fuel : Nat) (q v c : List Pos),
      v.Nodup →
      (∀ p ∈ q, p ∈ v) →
      (∀ p ∈ v, validCell voxelData gridSize p = true) →
      q.length + ((voxelPositions voxelData gridSize).length - v.length) ≤ fuel →
      ∃ d popped : List Pos,
        bfsLoop nf voxelData gridSize fuel q v c = (v ++ d, c ++ popped)
        ∧ (v ++ d).Nodup
        ∧ (∀ p ∈ d, validCell voxelData gridSize p = true)
        ∧ (q ++ d).Perm popped
        ∧ (∀ p ∈ popped, ∀ n ∈ nf p, validCell voxelData gridSize n = true → n ∈ v ++ d) := by
  intro fuel
  induction fuel with
  | zero =>
      intro q v c hvnd hqv hvval hfuel
      have hq : q = [] := by
        cases q with
        | nil => rfl
        | cons a q => simp at hfuel
      subst hq
      exact ⟨[], [], by simp [bfsLoop], by simpa using hvnd, by simp, by simp, by simp⟩
  | succ fuel ih =>
      intro q v c hvnd hqv hvval hfuel
      cases q with
      | nil =>
          exact ⟨[], [], by simp [bfsLoop], by simpa using hvnd, by simp, by simp, by simp⟩
      | cons current rest =>
          obtain ⟨e, heq, heprop, hend, hecov⟩ :=
            foldl_visit_spec voxelData gridSize (nf current) rest v
          have hvend : (v ++ e).Nodup := hend hvnd
          have hveval : ∀ p ∈ v ++ e, validCell voxelData gridSize p = true := by
            intro p hp
            rcases List.mem_append.mp hp with hp | hp
            · exact hvval p hp
            · exact (heprop p hp).1
          have hlenve : (v ++ e).length ≤ (voxelPositions voxelData gridSize).length :=
            voxelPositions_length_ge hvend hveval
          have hfuel' : (rest ++ e).length
              + ((voxelPositions voxelData gridSize).length - (v ++ e).length) ≤ fuel := by
            simp only [List.length_append, List.length_cons] at hfuel hlenve ⊢
            omega
          have hqv' : ∀ p ∈ rest ++ e, p ∈ v ++ e := by
            intro p hp
            rcases List.mem_append.mp hp with hp | hp
            · exact List.mem_append_left _ (hqv p (List.mem_cons_of_mem _ hp))
            · exact List.mem_append_right _ hp
          obtain ⟨d, popped, hres, hnd, hdval, hperm, hclosed⟩ :=
            ih (rest ++ e) (v ++ e) (c ++ [current]) hvend hqv' hveval hfuel'
          refine ⟨e ++ d, current :: popped, ?_, ?_, ?_, ?_, ?_⟩
          · show bfsLoop nf voxelData gridSize (fuel + 1) (current :: rest) v c = _
            rw [bfsLoop, heq]
            simpa using hres
          · simpa using hnd
          · intro p hp
            rcases List.mem_append.mp hp with hp | hp
            · exact (heprop p hp).1
            · exact hdval p hp
          · have : ((current :: rest) ++ (e ++ d)) = current :: ((rest ++ e) ++ d) := by simp
            rw [this]
            exact hperm.cons current
          · intro p hp n hn hnval
            rcases List.mem_cons.mp hp with rfl | hp
            · have : n ∈ v ++ e := hecov n hn hnval
              simpa using List.mem_append_left d this
            · have := hclosed p hp n hn hnval
              simpa using this

/-- Everything the breadth-first loop newly visits satisfies any predicate
that holds on the queue and is preserved by following a valid neighbor. -/
theorem bfsLoop_sound (nf : Pos → List Pos) (voxelData : List Bool) (gridSize : Nat)
    (R : Pos → Prop)
    (hstep : ∀ a p, R a → p ∈ nf a → validCell voxelData gridSize p = true → R p) :
    ∀ (fuel : Nat) (q v c : List Pos), (∀ p ∈ q, R p) →
      ∀ p ∈ (bfsLoop nf voxelData gridSize fuel q v c).1, p ∈ v ∨ R p := by
  intro fuel
  induction fuel with
  | zero =>
      intro q v c _ p hp
      exact Or.inl hp
  | succ fuel ih =>
      intro q v c hq p hp
      cases q with
      | nil => exact Or.inl hp
      | cons current rest =>
          obtain ⟨e, heq, heprop, -, -⟩ :=
            foldl_visit_spec voxelData gridSize (nf current) rest v
          rw [show bfsLoop nf voxelData gridSize (fuel + 1) (current :: rest) v c
              = bfsLoop nf voxelData gridSize fuel (rest ++ e) (v ++ e) (c ++ [current]) by
            rw [bfsLoop, heq]] at hp
          have hq' : ∀ x ∈ rest ++ e, R x := by
            intro x hx
            rcases List.mem_append.mp hx with hx | hx
            · exact hq x (List.mem_cons_of_mem _ hx)
            · exact hstep current x (hq current (List.mem_cons_self _ _))
                (heprop x hx).2.1 (heprop x hx).1
          rcases ih (rest ++ e) (v ++ e) (c ++ [current]) hq' p hp with hv | hr
          · rcases List.mem_append.mp hv with hv | hv
            · exact Or.inl hv
            · exact Or.inr (hq' p (List.mem_append_right _ hv))
          · exact Or.inr hr

/-- A set containing `a` and closed under a relation contains everything
reflexively-transitively reachable from `a`. -/
theorem mem_of_reflTransGen_of_closed {α : Type} {r : α → α → Prop} {S : α → Prop} {a b : α}
    (ha : S a) (hclosed : ∀ x y, S x → r x y → S y)
    (h : Relation.ReflTransGen r a b) : S b := by
  induction h with
  | refl => exact ha
  | tail _ hstep ih => exact hclosed _ _ ih hstep

/-- One flood-fill step under a connectivity rule: `b` is a neighbor of `a`
and is an in-grid occupied cell. -/
def stepRel (voxelData : List Bool) (gridSize : Nat) (connectivityType : String)
    (a b : Pos) : Prop :=
  b ∈ getNeighbors a connectivityType ∧ validCell voxelData gridSize b = true

theorem getNeighbors_face (p : Pos) :
    getNeighbors p "face" = faceDirections.map p.step := by
  unfold getNeighbors
  rw [if_neg (by decide), if_neg (by decide)]
  simp

theorem getNeighbors_edge (p : Pos) :
    getNeighbors p "edge" = getNeighbors p "face" ++ edgeDirections.map p.step := by
  unfold getNeighbors
  rw [if_pos (by decide), if_neg (by decide), if_neg (by decide), if_neg (by decide)]
  simp

theorem getNeighbors_corner (p : Pos) :
    getNeighbors p "corner" = getNeighbors p "edge" ++ cornerDirections.map p.step := by
  unfold getNeighbors
  rw [if_pos (by decide), if_pos (by decide), if_pos (by decide), if_neg (by decide)]
  simp

theorem getNeighbors_eq_face {t : String} (ht1 : t ≠ "edge") (ht2 : t ≠ "corner") (p : Pos) :
    getNeighbors p t = getNeighbors p "face" := by
  unfold getNeighbors
  rw [if_neg (by simp [ht1, ht2]), if_neg ht2, if_neg (by decide), if_neg (by decide)]

theorem getNeighbors_face_subset_edge (p : Pos) :
    ∀ n ∈ getNeighbors p "face", n ∈ getNeighbors p "edge" := by
  intro n hn
  rw [getNeighbors_edge]
  exact List.mem_append_left _ hn

theorem getNeighbors_face_subset_corner (p : Pos) :
    ∀ n ∈ getNeighbors p "face", n ∈ getNeighbors p "corner" := by
  intro n hn
  rw [getNeighbors_corner]
  exact List.mem_append_left _ (getNeighbors_face_subset_edge p n hn)

theorem isShapeConnected_nil {voxelData : List Bool} {gridSize : Nat} {t : String}
    (hP : voxelPositions voxelData gridSize = []) :
    isShapeConnected voxelData gridSize t = false := by
  unfold isShapeConnected
  split
  · rfl
  · next heq => rw [hP] at heq; exact absurd heq (by simp)
  · next heq => rw [hP] at heq; exact absurd heq (by simp)

theorem isShapeConnected_singleton {voxelData : List Bool} {gridSize : Nat} {t : String}
    {p : Pos} (hP : voxelPositions voxelData gridSize = [p]) :
    isShapeConnected voxelData gridSize t = true := by
  unfold isShapeConnected
  split
  · next heq => rw [hP] at heq; exact absurd heq (by simp)
  · rfl
  · next heq => rw [hP] at heq; simp at heq

theorem isShapeConnected_cons_cons {voxelData : List Bool} {gridSize : Nat} {t : String}
    {seed b : Pos} {rest : List Pos}
    (hP : voxelPositions voxelData gridSize = seed :: b :: rest) :
    isShapeConnected voxelData gridSize t =
      ((bfsLoop (fun p => getNeighbors p t) voxelData gridSize
          (voxelPositions voxelData gridSize).length [seed] [seed] []).1.length
        == (voxelPositions voxelData gridSize).length) := by
  unfold isShapeConnected
  split
  · next heq => rw [hP] at heq; exact absurd heq (by simp)
  · next heq => rw [hP] at heq; simp at heq
  · next s u v heq =>
      rw [hP] at heq
      injection heq with h1 h2
      subst h1
      rfl

/-- If the shape is connected under the face rule, it is connected under any
rule whose neighbor list contains the face neighbors. -/
theorem isShapeConnected_of_face {voxelData : List Bool} {gridSize : Nat} {t : String}
    (hsub : ∀ p : Pos, ∀ n ∈ getNeighbors p "face", n ∈ getNeighbors p t)
    (hface : isShapeConnected voxelData gridSize "face" = true) :
    isShapeConnected voxelData gridSize t = true := by
  cases hP : voxelPositions voxelData gridSize with
  | nil => rw [isShapeConnected_nil hP] at hface; exact absurd hface (by simp)
  | cons seed l =>
    cases l with
    | nil => exact isShapeConnected_singleton hP
    | cons b rest =>
      have hseedmem : seed ∈ voxelPositions voxelData gridSize := by rw [hP]; simp
      have hseedval : validCell voxelData gridSize seed = true := mem_voxelPositions.mp hseedmem
      have hposnd := voxelPositions_nodup voxelData gridSize
      have hseednd : ([seed] : List Pos).Nodup := List.nodup_singleton _
      have hseedq : ∀ p ∈ ([seed] : List Pos), p ∈ ([seed] : List Pos) := fun p hp => hp
      have hseedv : ∀ p ∈ ([seed] : List Pos), validCell voxelData gridSize p = true := by
        intro p hp
        rw [List.mem_singleton] at hp
        subst hp
        exact hseedval
      have hfuel : ([seed] : List Pos).length
          + ((voxelPositions voxelData gridSize).length - ([seed] : List Pos).length)
          ≤ (voxelPositions voxelData gridSize).length := by
        rw [hP]
        simp
        omega
      obtain ⟨df, pf, hresf, hndf, hdvalf, hpermf, -⟩ :=
        bfsLoop_drains (fun p => getNeighbors p "face") voxelData gridSize
          (voxelPositions voxelData gridSize).length [seed] [seed] []
          hseednd hseedq hseedv hfuel
      rw [isShapeConnected_cons_cons hP, hresf, beq_iff_eq] at hface
      have hfsub : ∀ p ∈ [seed] ++ df, p ∈ voxelPositions voxelData gridSize := by
        intro p hp
        rcases List.mem_append.mp hp with hp | hp
        · rw [List.mem_singleton] at hp
          subst hp
          exact hseedmem
        · exact mem_voxelPositions.mpr (hdvalf p hp)
      have hfperm : ([seed] ++ df).Perm (voxelPositions voxelData gridSize) :=
        (List.subperm_of_subset hndf hfsub).perm_of_length_le (le_of_eq hface.symm)
      have hreach : ∀ p ∈ voxelPositions voxelData gridSize,
          Relation.ReflTransGen (stepRel voxelData gridSize "face") seed p := by
        intro p hp
        have hsound := bfsLoop_sound (fun p => getNeighbors p "face") voxelData gridSize
          (Relation.ReflTransGen (stepRel voxelData gridSize "face") seed)
          (fun a q hRa hqn hqval => hRa.tail ⟨hqn, hqval⟩)
          (voxelPositions voxelData gridSize).length [seed] [seed] []
          (by
            intro x hx
            rw [List.mem_singleton] at hx
            subst hx
            exact Relation.ReflTransGen.refl)
        have hpv := hsound p (by rw [hresf]; exact hfperm.mem_iff.mpr hp)
        rcases hpv with hv | hr
        · rw [List.mem_singleton] at hv
          subst hv
          exact Relation.ReflTransGen.refl
        · exact hr
      obtain ⟨dt, pt, hrest, hndt, hdvalt, hpermt, hclosedt⟩ :=
        bfsLoop_drains (fun p => getNeighbors p t) voxelData gridSize
          (voxelPositions voxelData gridSize).length [seed] [seed] []
          hseednd hseedq hseedv hfuel
      have htsub : ∀ p ∈ [seed] ++ dt, p ∈ voxelPositions voxelData gridSize := by
        intro p hp
        rcases List.mem_append.mp hp with hp | hp
        · rw [List.mem_singleton] at hp
          subst hp
          exact hseedmem
        · exact mem_voxelPositions.mpr (hdvalt p hp)
      have hclosedv : ∀ x y, x ∈ [seed] ++ dt → stepRel voxelData gridSize t x y →
          y ∈ [seed] ++ dt := by
        intro x y hx hxy
        exact hclosedt x (hpermt.mem_iff.mp hx) y hxy.1 hxy.2
      have habs : ∀ p ∈ voxelPositions voxelData gridSize, p ∈ [seed] ++ dt := by
        intro p hp
        have hrt : Relation.ReflTransGen (stepRel voxelData gridSize t) seed p :=
          Relation.ReflTransGen.mono (fun a c hac => ⟨hsub a c hac.1, hac.2⟩) (hreach p hp)
        exact mem_of_reflTransGen_of_closed (by simp) hclosedv hrt
      have hlen1 : ([seed] ++ dt).length ≤ (voxelPositions voxelData gridSize).length :=
        (List.subperm_of_subset hndt htsub).length_le
      have hlen2 : (voxelPositions voxelData gridSize).length ≤ ([seed] ++ dt).length :=
        (List.subperm_of_subset hposnd habs).length_le
      rw [isShapeConnected_cons_cons hP, hrest, beq_iff_eq]
      exact le_antisymm hlen1 hlen2

/-- C2: for every grid, `isShapeConnected` is false with zero occupied
cells and true with exactly one; the neighbor-offset lists are face = 6
offsets, edge = face plus 12, corner = edge plus 8; and face-connectivity
implies edge- and corner-connectivity (superset neighbor sets never reduce
reachability). -/
theorem isShapeConnected_empty_singleton_monotone :
    (∀ (voxelData : List Bool) (gridSize : Nat) (t : String),
        (voxelPositions voxelData gridSize).length = 0 →
        isShapeConnected voxelData gridSize t = false)
    ∧ (∀ (voxelData : List Bool) (gridSize : Nat) (t : String),
        (voxelPositions voxelData gridSize).length = 1 →
        isShapeConnected voxelData gridSize t = true)
    ∧ (faceDirections.length = 6 ∧ edgeDirections.length = 12
        ∧ cornerDirections.length = 8)
    ∧ (∀ p : Pos, getNeighbors p "face" = faceDirections.map p.step
        ∧ getNeighbors p "edge" = getNeighbors p "face" ++ edgeDirections.map p.step
        ∧ getNeighbors p "corner" = getNeighbors p "edge" ++ cornerDirections.map p.step)
    ∧ (∀ (voxelData : List Bool) (gridSize : Nat),
        isShapeConnected voxelData gridSize "face" = true →
        isShapeConnected voxelData gridSize "edge" = true
          ∧ isShapeConnected voxelData gridSize "corner" = true) := by
  refine ⟨?_, ?_, ⟨rfl, rfl, rfl⟩, ?_, ?_⟩
  · intro voxelData gridSize t h0
    exact isShapeConnected_nil (List.length_eq_zero.mp h0)
  · intro voxelData gridSize t h1
    obtain ⟨p, hp⟩ := List.length_eq_one.mp h1
    exact isShapeConnected_singleton hp
  · intro p
    exact ⟨getNeighbors_face p, getNeighbors_edge p, getNeighbors_corner p⟩
  · intro voxelData gridSize hface
    exact ⟨isShapeConnected_of_face getNeighbors_face_subset_edge hface,
      isShapeConnected_of_face getNeighbors_face_subset_corner hface⟩

/-- Witness for C2 at concrete grids: the empty 1-grid, the full 1-grid, and
a two-cell face-connected 2-grid. -/
theorem isShapeConnected_empty_singleton_monotone_witness :
    isShapeConnected [] 1 "face" = false
    ∧ isShapeConnected [true] 1 "face" = true
    ∧ (isShapeConnected [true, true] 2 "edge" = true
        ∧ isShapeConnected [true, true] 2 "corner" = true) :=
  ⟨isShapeConnected_empty_singleton_monotone.1 [] 1 "face" (by decide),
   isShapeConnected_empty_singleton_monotone.2.1 [true] 1 "face" (by decide),
   isShapeConnected_empty_singleton_monotone.2.2.2.2 [true, true] 2 (by decide)⟩

/-- C10: any connectivity-type string other than the exact `"edge"` and
`"corner"` makes `getNeighbors` produce the face neighbor list, so
`isShapeConnected` behaves exactly as under `"face"`. -/
theorem isShapeConnected_unknown_rule (voxelData : List Bool) (gridSize : Nat)
    (t : String) (ht1 : t ≠ "edge") (ht2 : t ≠ "corner") :
    (∀ p : Pos, getNeighbors p t = getNeighbors p "face")
    ∧ isShapeConnected voxelData gridSize t
        = isShapeConnected voxelData gridSize "face" := by
  refine ⟨getNeighbors_eq_face ht1 ht2, ?_⟩
  cases hP : voxelPositions voxelData gridSize with
  | nil => rw [isShapeConnected_nil hP, isShapeConnected_nil hP]
  | cons seed l =>
    cases l with
    | nil => rw [isShapeConnected_singleton hP, isShapeConnected_singleton hP]
    | cons b rest =>
        rw [isShapeConnected_cons_cons hP, isShapeConnected_cons_cons hP]
        have hnf : (fun p => getNeighbors p t) = fun p => getNeighbors p "face" :=
          funext fun p => getNeighbors_eq_face ht1 ht2 p
        rw [hnf]

/-- Witness for C10 at the misspelled rule `"FACE"` on a two-cell grid. -/
theorem isShapeConnected_unknown_rule_witness :
    (∀ p : Pos, getNeighbors p "FACE" = getNeighbors p "face")
    ∧ isShapeConnected [true, true] 2 "FACE" = isShapeConnected [true, true] 2 "face" :=
  isShapeConnected_unknown_rule [true, true] 2 "FACE" (by decide) (by decide)

/-- Invariant of the outer component-discovery fold: the visited list stays
duplicate-free, holds only in-grid occupied cells, is (up to order) exactly
the concatenation of the emitted components, only grows, and absorbs every
scanned cell; the components list only grows. -/
theorem fccStep_fold_spec (voxelData : List Bool) (gridSize : Nat) :
    ∀ (l : List Pos), (∀ p ∈ l, p ∈ voxelPositions voxelData gridSize) →
    ∀ (v : List Pos) (cs : List (List Pos)),
      v.Nodup →
      (∀ p ∈ v, validCell voxelData gridSize p = true) →
      cs.flatten.Perm v →
      (l.foldl (fccStep voxelData gridSize (voxelPositions voxelData gridSize).length)
          (v, cs)).1.Nodup
      ∧ (∀ p ∈ (l.foldl (fccStep voxelData gridSize
            (voxelPositions voxelData gridSize).length) (v, cs)).1,
          validCell voxelData gridSize p = true)
      ∧ (l.foldl (fccStep voxelData gridSize (voxelPositions voxelData gridSize).length)
            (v, cs)).2.flatten.Perm
          (l.foldl (fccStep voxelData gridSize (voxelPositions voxelData gridSize).length)
            (v, cs)).1
      ∧ (∀ p ∈ v, p ∈ (l.foldl (fccStep voxelData gridSize
            (voxelPositions voxelData gridSize).length) (v, cs)).1)
      ∧ (∀ p ∈ l, p ∈ (l.foldl (fccStep voxelData gridSize
            (voxelPositions voxelData gridSize).length) (v, cs)).1)
      ∧ ∃ ce, (l.foldl (fccStep voxelData gridSize
            (voxelPositions voxelData gridSize).length) (v, cs)).2 = cs ++ ce := by
  intro l
  induction l with
  | nil =>
      intro _ v cs hvnd hvval hperm
      exact ⟨hvnd, hvval, hperm, fun p hp => hp, by simp, [], by simp⟩
  | cons pos l ih =>
      intro hl v cs hvnd hvval hperm
      have hposmem : pos ∈ voxelPositions voxelData gridSize :=
        hl pos (List.mem_cons_self _ _)
      have hposval : validCell voxelData gridSize pos = true :=
        mem_voxelPositions.mp hposmem
      have hl' : ∀ p ∈ l, p ∈ voxelPositions voxelData gridSize :=
        fun p hp => hl p (List.mem_cons_of_mem _ hp)
      by_cases hmem : pos ∈ v
      · have hstep : fccStep voxelData gridSize
            (voxelPositions voxelData gridSize).length (v, cs) pos = (v, cs) := by
          unfold fccStep
          rw [if_pos (by simpa using hmem)]
        rw [List.foldl_cons, hstep]
        obtain ⟨h1, h2, h3, h4, h5, h6⟩ := ih hl' v cs hvnd hvval hperm
        exact ⟨h1, h2, h3, h4, by
          intro p hp
          rcases List.mem_cons.mp hp with rfl | hp
          · exact h4 p hmem
          · exact h5 p hp, h6⟩
      · have hvpnd : (v ++ [pos]).Nodup := by
          rw [List.nodup_append]
          exact ⟨hvnd, List.nodup_singleton _, by simpa using hmem⟩
        have hvpval : ∀ p ∈ v ++ [pos], validCell voxelData gridSize p = true := by
          intro p hp
          rcases List.mem_append.mp hp with hp | hp
          · exact hvval p hp
          · rw [List.mem_singleton] at hp
            subst hp
            exact hposval
        have hvplen : (v ++ [pos]).length ≤ (voxelPositions voxelData gridSize).length :=
          voxelPositions_length_ge hvpnd hvpval
        have hfuel : ([pos] : List Pos).length
            + ((voxelPositions voxelData gridSize).length - (v ++ [pos]).length)
            ≤ (voxelPositions voxelData gridSize).length := by
          simp only [List.length_append, List.length_singleton] at hvplen ⊢
          omega
        obtain ⟨d, popped, hres, hnd, hdval, hpermd, -⟩ :=
          bfsLoop_drains (fun p => faceDirections.map p.step) voxelData gridSize
            (voxelPositions voxelData gridSize).length [pos] (v ++ [pos]) []
            hvpnd (by
              intro p hp
              rw [List.mem_singleton] at hp
              subst hp
              exact List.mem_append_right _ (by simp)) hvpval hfuel
        have hstep : fccStep voxelData gridSize
            (voxelPositions voxelData gridSize).length (v, cs) pos
            = ((v ++ [pos]) ++ d, cs ++ [popped]) := by
          unfold fccStep
          rw [if_neg (by simpa using hmem)]
          simp only [hres, List.nil_append]
        rw [List.foldl_cons, hstep]
        have hvdval : ∀ p ∈ (v ++ [pos]) ++ d, validCell voxelData gridSize p = true := by
          intro p hp
          rcases List.mem_append.mp hp with hp | hp
          · exact hvpval p hp
          · exact hdval p hp
        have hpermnew : (cs ++ [popped]).flatten.Perm ((v ++ [pos]) ++ d) := by
          rw [List.flatten_append, show ([popped] : List (List Pos)).flatten = popped by simp]
          exact (List.Perm.append hperm hpermd.symm).trans (by rw [List.append_assoc])
        obtain ⟨h1, h2, h3, h4, h5, h6⟩ := ih hl' ((v ++ [pos]) ++ d) (cs ++ [popped])
          hnd hvdval hpermnew
        refine ⟨h1, h2, h3, ?_, ?_, ?_⟩
        · intro p hp
          exact h4 p (List.mem_append_left _ (List.mem_append_left _ hp))
        · intro p hp
          rcases List.mem_cons.mp hp with rfl | hp
          · exact h4 p (List.mem_append_left _ (List.mem_append_right _ (by simp)))
          · exact h5 p hp
        · obtain ⟨ce, hce⟩ := h6
          exact ⟨[popped] ++ ce, by rw [hce, List.append_assoc]⟩

/-- C1: `findConnectedComponents` partitions the occupied cells exactly: the
flattened components are duplicate-free, a position appears in them iff it
is an in-bounds occupied cell, the component list is empty iff no cell is
occupied, and a degenerate (zero) grid size returns the empty list. -/
theorem findConnectedComponents_partition (voxelData : List Bool) (gridSize : Nat) :
    (findConnectedComponents voxelData gridSize).flatten.Nodup
    ∧ (∀ p : Pos, p ∈ (findConnectedComponents voxelData gridSize).flatten
        ↔ validCell voxelData gridSize p = true)
    ∧ (findConnectedComponents voxelData gridSize = []
        ↔ ∀ p : Pos, validCell voxelData gridSize p = false)
    ∧ (gridSize = 0 → findConnectedComponents voxelData gridSize = []) := by
  have hfcc : findConnectedComponents voxelData gridSize =
      ((voxelPositions voxelData gridSize).foldl
        (fccStep voxelData gridSize (voxelPositions voxelData gridSize).length)
        ([], [])).2 := rfl
  obtain ⟨h1, h2, h3, -, h5, -⟩ := fccStep_fold_spec voxelData gridSize
    (voxelPositions voxelData gridSize) (fun p hp => hp) [] []
    List.nodup_nil (by simp) (by simp)
  refine ⟨?_, ?_, ?_, ?_⟩
  · rw [hfcc]
    exact h3.nodup_iff.mpr h1
  · intro p
    rw [hfcc]
    constructor
    · intro hp
      exact h2 p (h3.mem_iff.mp hp)
    · intro hval
      exact h3.mem_iff.mpr (h5 p (mem_voxelPositions.mpr hval))
  · rw [hfcc]
    constructor
    · intro hnil p
      cases hval : validCell voxelData gridSize p with
      | false => rfl
      | true =>
          have hp : p ∈ ((voxelPositions voxelData gridSize).foldl
              (fccStep voxelData gridSize (voxelPositions voxelData gridSize).length)
              ([], [])).2.flatten :=
            h3.mem_iff.mpr (h5 p (mem_voxelPositions.mpr hval))
          rw [hnil] at hp
          exact absurd hp (by simp)
    · intro hall
      have hposnil : voxelPositions voxelData gridSize = [] := by
        rw [List.eq_nil_iff_forall_not_mem]
        intro p hp
        have hval := mem_voxelPositions.mp hp
        rw [hall p] at hval
        exact Bool.false_ne_true hval
      rw [hposnil]
      rfl
  · intro h0
    subst h0
    have hposnil : voxelPositions voxelData 0 = [] := by simp [voxelPositions]
    rw [hfcc, hposnil]
    rfl

/-- C3: the validation verdict is `hasVoxels AND isConnected`, the error
list is empty exactly when the shape is valid, and a grid with zero
occupied entries short-circuits to `hasVoxels = false`,
`isConnected = false` and the single must-have-one-voxel error. -/
theorem validateShape_spec (voxelData : List Bool) (gridSize : Nat)
    (connectivityType : String) (_hN : 0 < gridSize) :
    (validateShape voxelData gridSize connectivityType).isValid
        = ((validateShape voxelData gridSize connectivityType).hasVoxels
          && (validateShape voxelData gridSize connectivityType).isConnected)
    ∧ ((validateShape voxelData gridSize connectivityType).errors = []
        ↔ (validateShape voxelData gridSize connectivityType).isValid = true)
    ∧ ((voxelData.filter fun v => v).length = 0 →
        (validateShape voxelData gridSize connectivityType).hasVoxels = false
        ∧ (validateShape voxelData gridSize connectivityType).isConnected = false
        ∧ (validateShape voxelData gridSize connectivityType).errors
            = ["Shape must have at least one voxel"]) := by
  unfold validateShape
  by_cases hc : (voxelData.filter fun voxel => voxel).length > 0
  · rw [if_pos hc]
    refine ⟨?_, ?_, fun h0 => absurd h0 (by omega)⟩
    · cases hconn : isShapeConnected voxelData gridSize connectivityType <;> simp [hconn]
    · cases hconn : isShapeConnected voxelData gridSize connectivityType with
      | true => simp [hconn]
      | false =>
          by_cases hcomp :
            (getConnectivityDebugInfo voxelData gridSize).componentCount > 1
          · simp [hconn, hcomp]
          · simp [hconn, hcomp]
  · rw [if_neg hc]
    exact ⟨rfl, by simp, fun h0 => ⟨rfl, rfl, rfl⟩⟩

/-- Witness for C3 on the one-voxel 1-grid. -/
theorem validateShape_spec_witness :
    (validateShape [true] 1 "face").errors = []
      ↔ (validateShape [true] 1 "face").isValid = true :=
  (validateShape_spec [true] 1 "face" (by decide)).2.1

/-! ### The shape codec -/

theorem voxelDataToBinaryString_length (grid : List Bool) :
    (voxelDataToBinaryString grid).length = grid.length :=
  List.length_map _ _

/-- C5: decoding inverts encoding cell for cell; the encoded string has one
character per cell, `'1'` for occupied else `'0'`, in linear-index order. -/
theorem binaryString_roundtrip (grid : List Bool) :
    binaryStringToVoxelData (voxelDataToBinaryString grid) = grid
    ∧ (voxelDataToBinaryString grid).length = grid.length
    ∧ (voxelDataToBinaryString grid).data
        = grid.map fun voxel => if voxel then '1' else '0' := by
  refine ⟨?_, voxelDataToBinaryString_length grid, rfl⟩
  show (grid.map fun voxel => if voxel then '1' else '0').map (fun bit => bit == '1') = grid
  rw [List.map_map]
  have hcomp : ((fun bit => bit == '1') ∘ fun voxel : Bool => if voxel then '1' else '0')
      = id := by
    funext b
    cases b <;> rfl
  rw [hcomp, List.map_id]

theorem floorCbrt_cube (N : Nat) : floorCbrt (N ^ 3) = N := by
  unfold floorCbrt
  rw [Nat.findGreatest_eq_iff]
  refine ⟨Nat.le_self_pow (by norm_num) N, fun _ => le_refl _, ?_⟩
  intro n hn _ hcontra
  exact absurd hcontra (by
    have : N ^ 3 < n ^ 3 := Nat.pow_lt_pow_left hn (by norm_num)
    omega)

theorem roundCbrt_cube (N : Nat) : roundCbrt (N ^ 3) = N := by
  unfold roundCbrt
  rw [floorCbrt_cube, if_neg]
  intro h
  have hexp : (2 * N + 1) ^ 3 = 8 * N ^ 3 + 12 * N ^ 2 + 6 * N + 1 := by ring
  omega

/-- C6: `detectGridSize` recovers the exact grid size `N` for the binary
string of any grid of `N³` cells with `1 ≤ N ≤ 32` (the rounded cube root,
modelled in exact arithmetic, of `N³` is `N`; length 1000 gives 10), and
throws the not-a-perfect-cube error whenever the rounded cube root cubed
differs from the length. -/
theorem detectGridSize_spec :
    (∀ (N : Nat) (grid : List Bool), 1 ≤ N → N ≤ 32 → grid.length = N ^ 3 →
        detectGridSize (voxelDataToBinaryString grid) = Except.ok N)
    ∧ roundCbrt 1000 = 10
    ∧ (∀ s : String,
        roundCbrt s.length * roundCbrt s.length * roundCbrt s.length ≠ s.length →
        detectGridSize s
          = Except.error s!"Binary string length ({s.length}) is not a perfect cube") := by
  refine ⟨?_, by rw [show (1000 : Nat) = 10 ^ 3 by norm_num, roundCbrt_cube], ?_⟩
  · intro N grid h1 h32 hlen
    have hslen : (voxelDataToBinaryString grid).length = N ^ 3 := by
      rw [voxelDataToBinaryString_length, hlen]
    unfold detectGridSize
    rw [hslen]
    dsimp only
    rw [roundCbrt_cube, if_pos (by ring)]
  · intro s hne
    unfold detectGridSize
    dsimp only
    rw [if_neg hne]

/-- Witness for C6: an 8-cell grid decodes to size 2, and the length-3
string `"111"` is rejected. -/
theorem detectGridSize_spec_witness :
    detectGridSize (voxelDataToBinaryString (List.replicate 8 true)) = Except.ok 2
    ∧ detectGridSize "111"
        = Except.error "Binary string length (3) is not a perfect cube" := by
  refine ⟨detectGridSize_spec.1 2 (List.replicate 8 true) (by decide) (by decide) (by decide),
    ?_⟩
  have h := detectGridSize_spec.2.2 "111" (by decide)
  simpa using h

/-- C9: the empty string slips through `detectGridSize` — its length 0 passes
the rounded-cube-root test (`0³ = 0`) — so importing a payload whose
`voxelDataString` is `""` produces the degenerate grid size 0 with an empty
cell array, despite the data model requiring a positive size. -/
theorem detectGridSize_empty :
    detectGridSize "" = Except.ok 0
    ∧ importFromJSON ⟨some "", none, none⟩
        = Except.ok ⟨[], 0, ⟨5, 50⟩⟩ :=
  ⟨rfl, rfl⟩

/-- C7: a missing or falsy (zero) `difficulty`/`maxMoves` decodes to the
defaults 5/50; in particular encoding a fully filled 3³ grid with
`difficulty = 0`, `maxMoves = 0` and decoding the payload yields 5/50. -/
theorem importFromJSON_falsy_defaults :
    (∀ (payload : JSONPayload) (res : ImportResult),
        (payload.difficulty = none ∨ payload.difficulty = some 0) →
        (payload.maxMoves = none ∨ payload.maxMoves = some 0) →
        importFromJSON payload = Except.ok res →
        res.metadata = ⟨5, 50⟩)
    ∧ importFromJSON (exportToJSON (List.replicate 27 true) ⟨some 0, some 0⟩)
        = Except.ok ⟨List.replicate 27 true, 3, ⟨5, 50⟩⟩ := by
  constructor
  · intro payload res h1 h2 himp
    cases hvds : payload.voxelDataString with
    | none =>
        rw [importFromJSON, hvds] at himp
        exact absurd himp (by simp)
    | some s =>
        rw [importFromJSON, hvds] at himp
        dsimp only at himp
        cases hdet : detectGridSize s with
        | error e =>
            rw [hdet] at himp
            simp [Except.bind] at himp
        | ok n =>
            rw [hdet] at himp
            simp only [Bind.bind, Except.bind, Pure.pure, Except.pure,
              Except.ok.injEq] at himp
            subst himp
            rcases h1 with h1 | h1 <;> rcases h2 with h2 | h2 <;>
              simp [h1, h2, orFalsyDefault]
  · rfl

/-- Witness for C7 on a one-cell payload carrying zero metadata. -/
theorem importFromJSON_falsy_defaults_witness :
    (⟨[true], 1, ⟨5, 50⟩⟩ : ImportResult).metadata = ⟨5, 50⟩ :=
  importFromJSON_falsy_defaults.1 ⟨some "1", some 0, some 0⟩ ⟨[true], 1, ⟨5, 50⟩⟩
    (Or.inr rfl) (Or.inr rfl) rfl

/-- C8: the payload with `voxelDataString = "111"` and in-range metadata is
rejected with exactly the single perfect-cube error; and a missing (or
non-string) `voxelDataString` still lets the `difficulty` and `maxMoves`
range checks run, all errors accumulating into one list. -/
theorem validateJSONFormat_spec :
    validateJSONFormat ⟨some "111", some 5, some 50⟩
        = ⟨false, ["voxelDataString length (3) is not a perfect cube"]⟩
    ∧ (∀ payload : JSONPayload, payload.voxelDataString = none →
        (validateJSONFormat payload).errors
          = "Missing or invalid voxelDataString field"
            :: ((match payload.difficulty with
                | some d => if 1 ≤ d ∧ d ≤ 10 then []
                    else ["difficulty must be an integer from 1 to 10"]
                | none => ["difficulty must be an integer from 1 to 10"])
              ++ (match payload.maxMoves with
                | some m => if 1 ≤ m ∧ m ≤ 999 then []
                    else ["maxMoves must be an integer from 1 to 999"]
                | none => ["maxMoves must be an integer from 1 to 999"]))) := by
  constructor
  · decide
  · intro payload hvds
    unfold validateJSONFormat
    rw [hvds]
    dsimp only
    simp only [List.singleton_append, List.cons_append, List.nil_append, List.append_assoc]

/-- Witness for C8 on a payload missing `voxelDataString` with an
out-of-range difficulty. -/
theorem validateJSONFormat_spec_witness :
    (validateJSONFormat ⟨none, some 11, some 50⟩).errors
      = ["Missing or invalid voxelDataString field",
         "difficulty must be an integer from 1 to 10"] := by
  have h := validateJSONFormat_spec.2 ⟨none, some 11, some 50⟩ rfl
  simpa using h

/-! ### The grid resampler -/

theorem getD_set_ne (xs : List Bool) {i j : Nat} (a : Bool) (h : i ≠ j) :
    (xs.set i a).getD j false = xs.getD j false := by
  simp only [List.getD_eq_getElem?_getD, List.getElem?_set, if_neg h]

theorem getD_set_self (xs : List Bool) {i : Nat} (a : Bool) (h : i < xs.length) :
    (xs.set i a).getD i false = a := by
  simp [List.getD_eq_getElem?_getD, List.getElem?_set, h]

theorem foldl_set_length {β : Type} (l : List β) (k : β → Nat) (w : β → Bool) :
    ∀ init : List Bool,
      (l.foldl (fun acc c => acc.set (k c) (w c)) init).length = init.length := by
  induction l with
  | nil => intro init; rfl
  | cons c l ih =>
      intro init
      rw [List.foldl_cons, ih, List.length_set]

theorem foldl_set_getD_not_mem {β : Type} (l : List β) (k : β → Nat) (w : β → Bool) :
    ∀ (init : List Bool) (j : Nat), (∀ c ∈ l, k c ≠ j) →
      (l.foldl (fun acc c => acc.set (k c) (w c)) init).getD j false
        = init.getD j false := by
  induction l with
  | nil => intro init j _; rfl
  | cons c l ih =>
      intro init j hno
      rw [List.foldl_cons, ih _ j (fun x hx => hno x (List.mem_cons_of_mem _ hx)),
        getD_set_ne _ _ (hno c (List.mem_cons_self _ _))]

theorem foldl_set_getD_mem {β : Type} (l : List β) (k : β → Nat) (w : β → Bool) :
    ∀ (init : List Bool) (j : Nat) (c₀ : β), c₀ ∈ l → k c₀ = j → j < init.length →
      (∀ c ∈ l, k c = j → w c = w c₀) →
      (l.foldl (fun acc c => acc.set (k c) (w c)) init).getD j false = w c₀ := by
  induction l with
  | nil => intro _ _ _ h; cases h
  | cons c l ih =>
      intro init j c₀ hc₀ hk hlen hsame
      rw [List.foldl_cons]
      by_cases hexist : ∃ x ∈ l, k x = j
      · obtain ⟨x, hx, hkx⟩ := hexist
        have hres := ih (init.set (k c) (w c)) j x hx hkx
          (by rw [List.length_set]; exact hlen)
          (fun y hy hky => by
            rw [hsame y (List.mem_cons_of_mem _ hy) hky,
              hsame x (List.mem_cons_of_mem _ hx) hkx])
        rw [hres, hsame x (List.mem_cons_of_mem _ hx) hkx]
      · push_neg at hexist
        rw [foldl_set_getD_not_mem l k w _ j hexist]
        rcases List.mem_cons.mp hc₀ with rfl | hc₀m
        · rw [hk] at *
          exact getD_set_self init (w c₀) hlen
        · exact absurd hk (hexist c₀ hc₀m)

theorem mem_gridCoords {n : Nat} {c : Nat × Nat × Nat} :
    c ∈ gridCoords n ↔ c.1 < n ∧ c.2.1 < n ∧ c.2.2 < n := by
  unfold gridCoords
  simp only [List.mem_flatMap, List.mem_map, List.mem_range]
  constructor
  · rintro ⟨x, hx, y, hy, z, hz, rfl⟩
    exact ⟨hx, hy, hz⟩
  · rintro ⟨h1, h2, h3⟩
    exact ⟨c.1, h1, c.2.1, h2, c.2.2, h3, rfl⟩

theorem pack_lt {n a b c : Nat} (ha : a < n) (hb : b < n) (hc : c < n) :
    a + b * n + c * n * n < n * n * n := by
  nlinarith [Nat.succ_le_of_lt ha, Nat.succ_le_of_lt hb, Nat.succ_le_of_lt hc]

theorem pack_inj {n a b c a2 b2 c2 : Nat} (ha : a < n) (hb : b < n) (_hc : c < n)
    (ha2 : a2 < n) (hb2 : b2 < n) (hc2 : c2 < n)
    (h : a + b * n + c * n * n = a2 + b2 * n + c2 * n * n) :
    a = a2 ∧ b = b2 ∧ c = c2 := by
  have hn : 0 < n := by omega
  have hmod : ∀ x y z : Nat, x < n → (x + y * n + z * n * n) % n = x := by
    intro x y z hx
    rw [show x + y * n + z * n * n = x + (y + z * n) * n by ring,
      Nat.add_mul_mod_self_right, Nat.mod_eq_of_lt hx]
  have hdiv : ∀ x y z : Nat, x < n → (x + y * n + z * n * n) / n = y + z * n := by
    intro x y z hx
    rw [show x + y * n + z * n * n = x + (y + z * n) * n by ring,
      Nat.add_mul_div_right _ _ hn, Nat.div_eq_of_lt hx, Nat.zero_add]
  have e1 : a = a2 := by rw [← hmod a b c ha, ← hmod a2 b2 c2 ha2, h]
  have e2 : b + c * n = b2 + c2 * n := by rw [← hdiv a b c ha, ← hdiv a2 b2 c2 ha2, h]
  have e3 : (b + c * n) % n = b := by
    rw [Nat.add_mul_mod_self_right, Nat.mod_eq_of_lt hb]
  have e4 : (b2 + c2 * n) % n = b2 := by
    rw [Nat.add_mul_mod_self_right, Nat.mod_eq_of_lt hb2]
  have e5 : b = b2 := by rw [← e3, ← e4, e2]
  refine ⟨e1, e5, ?_⟩
  have : c * n = c2 * n := by omega
  exact Nat.eq_of_mul_eq_mul_right hn this

theorem foldl_length_invariant {β : Type} (l : List β) (f : List Bool → β → List Bool)
    (hf : ∀ acc c, (f acc c).length = acc.length) :
    ∀ init : List Bool, (l.foldl f init).length = init.length := by
  induction l with
  | nil => intro init; rfl
  | cons c l ih =>
      intro init
      rw [List.foldl_cons, ih, hf]

theorem convertGridSize_length (voxelData : List Bool) (fromGridSize toGridSize : Nat) :
    (convertGridSize voxelData fromGridSize toGridSize).length
      = toGridSize * toGridSize * toGridSize := by
  unfold convertGridSize
  split
  · dsimp only
    rw [foldl_length_invariant _ _ (fun acc c => List.length_set _ _ _),
      List.length_replicate]
  · dsimp only
    rw [foldl_length_invariant _ _ ?_, List.length_replicate]
    intro acc c
    split
    · rw [List.length_set]
    · rfl

/-- A cell of the centered expansion: destination `(x+o, y+o, z+o)` holds
source `(x, y, z)`, where `o = (T − S) / 2`. -/
theorem convertGridSize_expand_getD (g : List Bool) (S T : Nat) (hST : S ≤ T)
    {x y z : Nat} (hx : x < S) (hy : y < S) (hz : z < S) :
    (convertGridSize g S T).getD
        ((x + (T - S) / 2) + (y + (T - S) / 2) * T + (z + (T - S) / 2) * T * T) false
      = g.getD (x + y * S + z * S * S) false := by
  have hoS : (T - S) / 2 + S ≤ T := by omega
  unfold convertGridSize
  rw [if_pos hST]
  dsimp only
  exact foldl_set_getD_mem (gridCoords S)
    (fun c => (c.1 + (T - S) / 2) + (c.2.1 + (T - S) / 2) * T + (c.2.2 + (T - S) / 2) * T * T)
    (fun c => g.getD (c.1 + c.2.1 * S + c.2.2 * S * S) false)
    (List.replicate (T * T * T) false)
    ((x + (T - S) / 2) + (y + (T - S) / 2) * T + (z + (T - S) / 2) * T * T)
    (x, y, z) (mem_gridCoords.mpr ⟨hx, hy, hz⟩) rfl
    (by
      rw [List.length_replicate]
      exact pack_lt (by omega) (by omega) (by omega))
    (by
      intro c hc hkc
      obtain ⟨h1, h2, h3⟩ := mem_gridCoords.mp hc
      obtain ⟨e1, e2, e3⟩ := pack_inj (n := T) (by omega) (by omega) (by omega)
        (by omega) (by omega) (by omega) hkc
      dsimp only
      rw [show c.1 = x by omega, show c.2.1 = y by omega, show c.2.2 = z by omega])

/-- A cell of the centered crop: destination `(x, y, z)` holds source
`(x+o, y+o, z+o)`, where `o = (T − S) / 2`; the source-bounds guard always
holds for a destination cell. -/
theorem convertGridSize_crop_getD (h : List Bool) (T S : Nat) (hTS : S < T)
    {x y z : Nat} (hx : x < S) (hy : y < S) (hz : z < S) :
    (convertGridSize h T S).getD (x + y * S + z * S * S) false
      = h.getD ((x + (T - S) / 2) + (y + (T - S) / 2) * T + (z + (T - S) / 2) * T * T)
          false := by
  unfold convertGridSize
  rw [if_neg (by omega)]
  dsimp only
  have hfold :
      (gridCoords S).foldl
        (fun acc (c : Nat × Nat × Nat) =>
          if c.1 + (T - S) / 2 < T ∧ c.2.1 + (T - S) / 2 < T ∧ c.2.2 + (T - S) / 2 < T then
            acc.set (c.1 + c.2.1 * S + c.2.2 * S * S)
              (h.getD ((c.1 + (T - S) / 2) + (c.2.1 + (T - S) / 2) * T
                + (c.2.2 + (T - S) / 2) * T * T) false)
          else acc)
        (List.replicate (S * S * S) false)
      = (gridCoords S).foldl
        (fun acc (c : Nat × Nat × Nat) =>
          acc.set (c.1 + c.2.1 * S + c.2.2 * S * S)
            (h.getD ((c.1 + (T - S) / 2) + (c.2.1 + (T - S) / 2) * T
              + (c.2.2 + (T - S) / 2) * T * T) false))
        (List.replicate (S * S * S) false) := by
    apply List.foldl_ext
    intro acc c hc
    obtain ⟨h1, h2, h3⟩ := mem_gridCoords.mp hc
    rw [if_pos ⟨by omega, by omega, by omega⟩]
  rw [hfold]
  exact foldl_set_getD_mem (gridCoords S)
    (fun c => c.1 + c.2.1 * S + c.2.2 * S * S)
    (fun c => h.getD ((c.1 + (T - S) / 2) + (c.2.1 + (T - S) / 2) * T
      + (c.2.2 + (T - S) / 2) * T * T) false)
    (List.replicate (S * S * S) false)
    (x + y * S + z * S * S)
    (x, y, z) (mem_gridCoords.mpr ⟨hx, hy, hz⟩) rfl
    (by
      rw [List.length_replicate]
      exact pack_lt hx hy hz)
    (by
      intro c hc hkc
      obtain ⟨h1, h2, h3⟩ := mem_gridCoords.mp hc
      obtain ⟨e1, e2, e3⟩ := pack_inj (n := S) h1 h2 h3 hx hy hz hkc
      dsimp only
      rw [e1, e2, e3])

theorem eq_of_getD {l1 l2 : List Bool} (hlen : l1.length = l2.length)
    (h : ∀ j, j < l1.length → l1.getD j false = l2.getD j false) : l1 = l2 := by
  apply List.ext_getElem hlen
  intro i h1 h2
  have hh := h i h1
  rwa [List.getD_eq_getElem _ _ h1, List.getD_eq_getElem _ _ h2] at hh

theorem unpack_index {n j : Nat} (hn : 0 < n) (hj : j < n * n * n) :
    j % n < n ∧ j / n % n < n ∧ j / (n * n) < n ∧
      j = j % n + (j / n % n) * n + (j / (n * n)) * n * n := by
  refine ⟨Nat.mod_lt _ hn, Nat.mod_lt _ hn, ?_, ?_⟩
  · rw [Nat.div_lt_iff_lt_mul (by positivity)]
    rwa [← Nat.mul_assoc]
  · conv_lhs => rw [← Nat.div_add_mod j n]
    conv_lhs => rw [← Nat.div_add_mod (j / n) n]
    rw [Nat.div_div_eq_div_mul]
    ring

/-- C4: for sizes `1 ≤ S ≤ T`, cropping back after expanding recovers a
grid of size `S` exactly — the centered pad and the centered crop share the
offset `(T − S) / 2`, so the crop window coincides with the pad image. -/
theorem convertGridSize_roundtrip (S T : Nat) (g : List Bool)
    (hS : 1 ≤ S) (hST : S ≤ T) (hg : g.length = S * S * S) :
    convertGridSize (convertGridSize g S T) T S = g := by
  rcases Nat.eq_or_lt_of_le hST with rfl | hlt
  · have hexp : ∀ h : List Bool, h.length = S * S * S → convertGridSize h S S = h := by
      intro h hh
      apply eq_of_getD
      · rw [convertGridSize_length, hh]
      · intro j hj
        rw [convertGridSize_length] at hj
        obtain ⟨m1, m2, m3, hdecomp⟩ := unpack_index (by omega) hj
        have hc := convertGridSize_expand_getD h S S (le_refl S) m1 m2 m3
        simp only [Nat.sub_self, Nat.zero_div, Nat.add_zero] at hc
        conv_lhs => rw [hdecomp]
        rw [hc, ← hdecomp]
    rw [hexp g hg, hexp g hg]
  · apply eq_of_getD
    · rw [convertGridSize_length, hg]
    · intro j hj
      rw [convertGridSize_length] at hj
      obtain ⟨m1, m2, m3, hdecomp⟩ := unpack_index (by omega) hj
      conv_lhs => rw [hdecomp]
      rw [convertGridSize_crop_getD (convertGridSize g S T) T S hlt m1 m2 m3,
        convertGridSize_expand_getD g S T hST m1 m2 m3, ← hdecomp]

/-- Witness for C4: a 2-grid expanded to size 5 and cropped back. -/
theorem convertGridSize_roundtrip_witness :
    convertGridSize (convertGridSize [true, false, true, true, false, false, true, false] 2 5)
      5 2 = [true, false, true, true, false, false, true, false] :=
  convertGridSize_roundtrip 2 5 [true, false, true, true, false, false, true, false]
    (by decide) (by decide) (by decide)

end Chiselcore
